import Mathlib

/-!
Verification of the order-lifecycle and market-data reconciliation engine of
the backtrader Angel-Broking integration.

The definitions below are shallow embeddings of the Python source:
* `src/backtrader/feeds/angeldata.py` — tick-to-bar aggregation
  (`_aggregate_tick`, `_start_new_bar`, `_get_bar_end_time`, `_push_bar`);
* `src/backend/trading/oms.py` — pre-trade risk checks
  (`check_margin`, `check_duplicate_order`, `apply_slippage_control`);
* `src/backtrader/brokers/angelbroker.py` — the order reconciler
  (`_handle_order_update`, `_update_fill`, `_cleanup_order`, `_place_order`).

Prices, quantities and cash are modelled as exact rationals (`ℚ`); timestamps
are modelled in milliseconds (`ℕ`), matching the `exchange_timestamp` field of
the tick stream.  Python dictionaries with optional keys are modelled as
structures of `Option` fields; a Python statement that can raise on a missing
key is modelled as a function into `Option`, `none` standing for the raised
exception.
-/

namespace Backtrader

/-! ## Bar aggregation (src/backtrader/feeds/angeldata.py) -/

/-- A live tick as delivered by the websocket: a dictionary whose keys
`last_traded_price`, `last_traded_quantity` and `exchange_timestamp` may each
be absent.  `exchange_timestamp` is in milliseconds. -/
structure LiveTick where
  last_traded_price : Option ℚ
  last_traded_quantity : Option ℚ
  exchange_timestamp : Option ℕ
deriving DecidableEq

/-- Python truthiness of the tick dictionary: `not tick` holds exactly when the
dictionary is empty, i.e. every modelled key is absent. -/
def LiveTick.isEmptyDict (t : LiveTick) : Bool :=
  t.last_traded_price.isNone && t.last_traded_quantity.isNone &&
    t.exchange_timestamp.isNone

/-- One OHLCV bar under construction (`self._current_bar` in the source);
`datetime` is the timestamp (ms) of the tick that opened the bar.  The field
`opn` renders the source's `open` key (a Lean keyword). -/
structure TickBar where
  datetime : ℕ
  opn : ℚ
  high : ℚ
  low : ℚ
  close : ℚ
  volume : ℚ
deriving DecidableEq

/-- The data feed's timeframe parameter; `_get_bar_end_time` only implements
the `Minutes` branch and returns the open time unchanged otherwise. -/
inductive TimeFrame where
  | Minutes
  | Other
deriving DecidableEq

/-- `_get_bar_end_time`: the open timestamp with seconds and microseconds
zeroed (truncation to the minute) plus `compression` minutes.  In
milliseconds: `dt / 60000 * 60000 + compression * 60000`. -/
def get_bar_end_time (tf : TimeFrame) (compression : ℕ) (dt : ℕ) : ℕ :=
  match tf with
  | .Minutes => dt / 60000 * 60000 + compression * 60000
  | .Other => dt

/-- `_start_new_bar`: a bar seeded with a single tick,
open = high = low = close = price. -/
def start_new_bar (dt : ℕ) (price volume : ℚ) : TickBar :=
  { datetime := dt, opn := price, high := price, low := price, close := price,
    volume := volume }

/-- Aggregator state: the open bar (if any) and the bars pushed so far
(`_push_bar` emits the finished bar to the feed's lines; we record emissions
in order). -/
structure AggState where
  current_bar : Option TickBar
  emitted : List TickBar
deriving DecidableEq

/-- `_aggregate_tick`.  Returns `none` when the Python code would raise
(`tick['exchange_timestamp']` on a tick that has a price but no timestamp);
otherwise `some` of the new aggregator state. -/
def aggregate_tick (tf : TimeFrame) (compression : ℕ) (s : AggState)
    (tick : LiveTick) : Option AggState :=
  if tick.isEmptyDict || tick.last_traded_price.isNone then some s
  else
    match tick.last_traded_price, tick.exchange_timestamp with
    | some price, some dt =>
      let volume := tick.last_traded_quantity.getD 0
      match s.current_bar with
      | none => some { s with current_bar := some (start_new_bar dt price volume) }
      | some b =>
        if dt ≥ get_bar_end_time tf compression b.datetime then
          some { current_bar := some (start_new_bar dt price volume),
                 emitted := s.emitted ++ [b] }
        else
          let b2 : TickBar :=
            { b with high := max b.high price, low := min b.low price,
                     close := price, volume := b.volume + volume }
          some { s with current_bar := some b2 }
    | _, _ => none

/-- Folding a whole tick stream through the aggregator. -/
def run_ticks (tf : TimeFrame) (compression : ℕ) (s : AggState)
    (ticks : List LiveTick) : Option AggState :=
  ticks.foldlM (aggregate_tick tf compression) s

/-- The window boundary as the specification words it: the opening tick's
timestamp truncated to the configured interval (`compression` minutes), plus
one interval. -/
def spec_interval_boundary (compression : ℕ) (dt : ℕ) : ℕ :=
  dt / (compression * 60000) * (compression * 60000) + compression * 60000

/-! ## Orders and positions

The backtrader framework classes `Order` and `Position` are imported by the
source (`import backtrader as bt`, `from backtrader.position import Position`)
but their defining module is not part of the material under `src/`; only their
use sites are.  They are therefore modelled from the specification. -/

/-- Order status, following the specification's state machine
`Created → Submitted → Accepted → PartiallyFilled → Completed`, with
`Rejected` and `Cancelled` as the alternate terminal states. -/
inductive OrderStatus where
  | Created
  | Submitted
  | Accepted
  | PartiallyFilled
  | Completed
  | Rejected
  | Cancelled
deriving DecidableEq

/-- The terminal states: Completed, Rejected, Cancelled. -/
def OrderStatus.isTerminal : OrderStatus → Bool
  | .Completed => true
  | .Rejected => true
  | .Cancelled => true
  | _ => false

/-- Execution type of an order (`order.exectype`); the broker's
`_prepare_order_params` supports only `Market` and `Limit`. -/
inductive ExecKind where
  | Market
  | Limit
  | Stop
  | StopLimit
  | OCO
deriving DecidableEq

/-- Modelled from the spec: the backtrader `Order` class (absent from
`src/`).  Identity is the locally generated reference `ref`; `dataId`
identifies the instrument (the `order.data` feed); `size` is the requested
quantity; `price` is the limit price, present iff the order kind requires one
(in particular absent for Market orders); `filled` is the cumulative filled
quantity. -/
structure BtOrder where
  ref : ℕ
  dataId : ℕ
  isbuy : Bool
  exectype : ExecKind
  size : ℚ
  price : Option ℚ
  status : OrderStatus
  filled : ℚ
deriving DecidableEq

/-- Modelled from the spec: `Order.execute` — increase the cumulative filled
quantity by the event's fill quantity and transition to `PartiallyFilled` or
`Completed` (completed iff cumulative equals requested). -/
def BtOrder.execute (o : BtOrder) (size : ℚ) : BtOrder :=
  { o with filled := o.filled + size,
           status := if o.filled + size = o.size then .Completed
                     else .PartiallyFilled }

/-- Modelled from the spec: `Order.reject` — transition to the terminal
state `Rejected`. -/
def BtOrder.reject (o : BtOrder) : BtOrder := { o with status := .Rejected }

/-- Modelled from the spec: `Order.cancel` — transition to the terminal
state `Cancelled`. -/
def BtOrder.cancel (o : BtOrder) : BtOrder := { o with status := .Cancelled }

/-- Modelled from the spec: `Order.submit` — transition to `Submitted`. -/
def BtOrder.submit (o : BtOrder) : BtOrder := { o with status := .Submitted }

/-- Modelled from the spec: the backtrader `Position` class (absent from
`src/`) — a signed per-instrument quantity and an average entry price;
`Position(0, 0.0)` is the default used by `_update_fill`. -/
structure Position where
  size : ℚ
  price : ℚ
deriving DecidableEq

/-! ## Pre-trade risk checks (src/backend/trading/oms.py) -/

/-- Outcome of one OMS check: either it passes or it raises an exception,
which `AngelBroker.execute_order` catches and converts into a local
rejection of the order. -/
inductive CheckResult where
  | pass
  | err (msg : String)
deriving DecidableEq

/-- `OMS.check_margin`: `required_margin = order.size * order.price`; raise
`ValueError` if `broker.getcash() < required_margin`.  When the order carries
no limit price (`order.price` is `None`, as for Market intents), the Python
multiplication `order.size * order.price` raises a `TypeError` instead of
consulting any market price. -/
def check_margin (cash : ℚ) (order : BtOrder) : CheckResult :=
  match order.price with
  | none => .err "TypeError"
  | some p => if cash < order.size * p then .err "Insufficient margin" else .pass

/-- The duplicate-signal key `(data._name, order.isbuy())`. -/
abbrev SignalKey := String × Bool

/-- The OMS's mutable state: `self.active_orders`, initialised to the empty
dictionary in `OMS.__init__` and never written anywhere else in the source. -/
structure OMSState where
  active_orders : List (SignalKey × String)
deriving DecidableEq

/-- `OMS.__init__`: `self.active_orders = {}`. -/
def omsInit : OMSState := ⟨[]⟩

/-- `OMS.check_duplicate_order`: raise iff
`self.active_orders.get((data._name, order.isbuy())) == 'FILLED'`. -/
def check_duplicate_order (st : OMSState) (dataName : String) (isbuy : Bool) :
    CheckResult :=
  if st.active_orders.lookup (dataName, isbuy) = some "FILLED" then
    .err "Duplicate order detected"
  else .pass

/-- The operations of the trading backend that run while an `OMS` instance is
alive.  No statement in the source assigns to `self.active_orders` after
`__init__` — `pre_trade_checks` (and the three checks it runs) only read it,
`apply_slippage_control` does not touch it, and no other module references
it — so every operation leaves the OMS state unchanged. -/
inductive OMSEvent where
  | preTradeChecks (dataName : String) (isbuy : Bool)
  | applySlippage
  | orderCompleted (dataName : String) (isbuy : Bool)
  | orderRejected (dataName : String) (isbuy : Bool)

/-- State transition of the OMS under one backend operation: the identity,
because the source contains no write to `active_orders`. -/
def omsStep (st : OMSState) (_ : OMSEvent) : OMSState := st

/-- Running a whole trace of backend operations from a fresh OMS. -/
def omsRun (events : List OMSEvent) : OMSState :=
  events.foldl omsStep omsInit

/-- The slice of the SmartAPI order-parameter dictionary read and written by
`OMS.apply_slippage_control`. -/
structure OrderParams where
  ordertype : String
  transactiontype : String
  quantity : ℚ
  price : Option ℚ
deriving DecidableEq

/-- Python's built-in `round`: round half to even (banker's rounding). -/
def pyRound (x : ℚ) : ℤ :=
  if Int.fract x < 1 / 2 then ⌊x⌋
  else if 1 / 2 < Int.fract x then ⌊x⌋ + 1
  else if ⌊x⌋ % 2 = 0 then ⌊x⌋ else ⌊x⌋ + 1

/-- `instrument.tick_size or 0.05`: the fallback kicks in when the stored tick
size is `None` or `0` (Python falsiness). -/
def effective_tick (tick_size_meta : Option ℚ) : ℚ :=
  match tick_size_meta with
  | none => 5 / 100
  | some t => if t = 0 then 5 / 100 else t

/-- `OMS.apply_slippage_control`: a MARKET order is rewritten to a LIMIT order
at `last_price ± tick_size * 5` (plus for BUY, minus otherwise), with
`price = round(limit_price / tick_size) * tick_size`; any other order type is
returned unchanged.  `last_price` is `data.close[0]`. -/
def apply_slippage_control (order_params : OrderParams) (last_price : ℚ)
    (tick_size_meta : Option ℚ) : OrderParams :=
  if order_params.ordertype = "MARKET" then
    let tick_size := effective_tick tick_size_meta
    let limit_price :=
      if order_params.transactiontype = "BUY" then last_price + tick_size * 5
      else last_price - tick_size * 5
    { order_params with ordertype := "LIMIT",
                        price := some ((pyRound (limit_price / tick_size) : ℚ) * tick_size) }
  else order_params

/-! ## Order reconciliation (src/backtrader/brokers/angelbroker.py) -/

/-- One broker order-update event, as the dictionary delivered to
`_handle_order_update`: the keys `orderid`, `status`, `averageprice` and
`filledshares` may each be absent. -/
structure OrderUpdateData where
  orderid : Option String
  status : Option String
  averageprice : Option ℚ
  filledshares : Option ℚ
deriving DecidableEq

/-- The broker's mutable state: the position table keyed by instrument
(`self.positions`), the order objects keyed by their local reference, the two
identifier maps `self._bt_order_map` (local ref → broker order id) and
`self._broker_order_map` (broker order id → order), and `self.cash`.  The
Python maps hold the order objects themselves; here the object heap is the
`orders` table and `brokerOrderMap` stores the object's reference. -/
structure BrokerState where
  positions : ℕ → Option Position
  orders : ℕ → Option BtOrder
  btOrderMap : ℕ → Option String
  brokerOrderMap : String → Option ℕ
  cash : ℚ

/-- `_cleanup_order(bt_ref, broker_id)`: delete `bt_ref` from
`_bt_order_map` and `broker_id` from `_broker_order_map` when present (when
`broker_id` is `None` neither dictionary has it as a key). -/
def cleanup_order (st : BrokerState) (btRef : ℕ) (brokerId : Option String) :
    BrokerState :=
  { st with
    btOrderMap := fun r => if r = btRef then none else st.btOrderMap r,
    brokerOrderMap := fun b => if brokerId = some b then none
                               else st.brokerOrderMap b }

/-- The position arithmetic of `_update_fill`: for a buy,
`pos.size += size` and then
`pos.price = (pos.price * (pos.size - size) + price * size) / pos.size if
pos.size else price` (note that `pos.size` is already the updated size); for
a sell only `pos.size -= size`, the average price is left untouched. -/
def fillPosition (pos : Position) (isbuy : Bool) (size price : ℚ) : Position :=
  if isbuy then
    { size := pos.size + size,
      price := if pos.size + size = 0 then price
               else (pos.price * (pos.size + size - size) + price * size) /
                      (pos.size + size) }
  else
    { size := pos.size - size, price := pos.price }

/-- The cash arithmetic of `_update_fill`: `self.cash -= size * price` on a
buy, `self.cash += size * price` on a sell. -/
def fillCash (cash : ℚ) (isbuy : Bool) (size price : ℚ) : ℚ :=
  if isbuy then cash - size * price else cash + size * price

/-- `_update_fill(order, size, price)`: update the position looked up with
default `Position(0, 0.0)` and the cash, execute the order, and, if the order
is now `Completed`, run `_cleanup_order(order.ref,
self._bt_order_map.get(order.ref))`. -/
def update_fill (st : BrokerState) (o : BtOrder) (size price : ℚ) :
    BrokerState :=
  let pos := (st.positions o.dataId).getD ⟨0, 0⟩
  let o2 := o.execute size
  let st2 : BrokerState :=
    { positions := fun d => if d = o.dataId then
                              some (fillPosition pos o.isbuy size price)
                            else st.positions d,
      orders := fun r => if r = o2.ref then some o2 else st.orders r,
      btOrderMap := st.btOrderMap,
      brokerOrderMap := st.brokerOrderMap,
      cash := fillCash st.cash o.isbuy size price }
  if o2.status = .Completed then cleanup_order st2 o2.ref (st2.btOrderMap o2.ref)
  else st2

/-- `_handle_order_update(data)`: look the broker id up in
`_broker_order_map` (an absent `orderid` key makes the lookup miss) and
return silently when no local order matches; on `'complete'` read
`averageprice` and `filledshares` (raising, modelled as `none`, when either
key is absent) and run `_update_fill`; on `'rejected'`/`'cancelled'` put the
order in that terminal state, then `_cleanup_order(order.ref, broker_id)`;
any other status leaves the state unchanged. -/
def handle_order_update (st : BrokerState) (data : OrderUpdateData) :
    Option BrokerState :=
  match data.orderid with
  | none => some st
  | some bid =>
    match st.brokerOrderMap bid with
    | none => some st
    | some ref =>
      match st.orders ref with
      | none => some st
      | some o =>
        if data.status = some "complete" then
          match data.averageprice, data.filledshares with
          | some p, some q => some (update_fill st o q p)
          | _, _ => none
        else if data.status = some "rejected" ∨ data.status = some "cancelled"
        then
          let o2 := if data.status = some "rejected" then o.reject else o.cancel
          let st2 : BrokerState :=
            { st with orders := fun r => if r = o2.ref then some o2
                                         else st.orders r }
          some (cleanup_order st2 o.ref (some bid))
        else some st

/-- Outcome of the external `smartapi.placeOrder` call as seen by
`_place_order`: a response with `status` truthy and a broker order id, a
response with `status` falsy, or a raised exception. -/
inductive PlaceResponse where
  | ok (orderid : String)
  | failed
  | exc

/-- `_prepare_order_params` returns a payload only for `Market` and `Limit`
orders and `None` otherwise. -/
def prepare_order_params_ok (o : BtOrder) : Bool :=
  match o.exectype with
  | .Market => true
  | .Limit => true
  | _ => false

/-- `_place_order(order)`: an unsupported exec type rejects the order locally;
on a successful response the order is submitted and both identifier maps gain
an entry; a failed response or an exception rejects the order locally. -/
def place_order (st : BrokerState) (o : BtOrder) (resp : PlaceResponse) :
    BrokerState :=
  if prepare_order_params_ok o = false then
    { st with orders := fun r => if r = o.ref then some o.reject
                                 else st.orders r }
  else
    match resp with
    | .ok bid =>
      { st with
        orders := fun r => if r = o.ref then some o.submit else st.orders r,
        btOrderMap := fun r => if r = o.ref then some bid else st.btOrderMap r,
        brokerOrderMap := fun b => if b = bid then some o.ref
                                   else st.brokerOrderMap b }
    | .failed =>
      { st with orders := fun r => if r = o.ref then some o.reject
                                   else st.orders r }
    | .exc =>
      { st with orders := fun r => if r = o.ref then some o.reject
                                   else st.orders r }

/-- The broker's state at `start`: empty position table, no orders, empty
identifier maps. -/
def initBroker (startingcash : ℚ) : BrokerState :=
  { positions := fun _ => none, orders := fun _ => none,
    btOrderMap := fun _ => none, brokerOrderMap := fun _ => none,
    cash := startingcash }

/-- The reconciler's structural invariant: every order object is stored under
its own reference, and every broker id known to `_broker_order_map` points to
a stored, non-terminal order whose reference `_bt_order_map` maps back to the
same broker id.  It holds initially, is established by `_place_order` and is
preserved by `_handle_order_update`. -/
def Inv (st : BrokerState) : Prop :=
  (∀ r o, st.orders r = some o → o.ref = r) ∧
  (∀ bid ref, st.brokerOrderMap bid = some ref →
    st.btOrderMap ref = some bid ∧
    ∃ o, st.orders ref = some o ∧ o.status.isTerminal = false)

/-! ## Theorems -/

lemma omsFoldl_fixed (events : List OMSEvent) (s : OMSState) :
    events.foldl omsStep s = s := by
  induction events with
  | nil => rfl
  | cons e es ih => simpa [omsStep] using ih

/-- C10: an empty tick, or a tick lacking the `last_traded_price` key, is a
no-op for the bar aggregator: the state — the open bar and every emitted
bar — is returned completely unchanged. -/
theorem C10_empty_tick_noop (tf : TimeFrame) (compression : ℕ)
    (s : AggState) (tick : LiveTick)
    (h : tick.isEmptyDict = true ∨ tick.last_traded_price = none) :
    aggregate_tick tf compression s tick = some s := by
  unfold aggregate_tick
  rcases h with h | h
  · rw [h]
    simp
  · rw [h]
    simp

/-- Witness for C10 at the empty tick dictionary. -/
theorem C10_witness :
    (LiveTick.isEmptyDict ⟨none, none, none⟩ = true ∨
      (⟨none, none, none⟩ : LiveTick).last_traded_price = none) ∧
    aggregate_tick .Minutes 5 ⟨some (start_new_bar 0 100 1), []⟩
      ⟨none, none, none⟩ = some ⟨some (start_new_bar 0 100 1), []⟩ :=
  ⟨Or.inl rfl,
   C10_empty_tick_noop .Minutes 5 ⟨some (start_new_bar 0 100 1), []⟩
     ⟨none, none, none⟩ (Or.inl rfl)⟩

/-- An aggregator state whose open bar was opened by a tick at 10:02:00
(36120000 ms into the day). -/
def c3OpenState : AggState := ⟨some (start_new_bar 36120000 100 0), []⟩

/-- A tick at 10:05:00 (36300000 ms), on the claimed 5-minute-grid boundary
of the open bar. -/
def c3Tick : LiveTick := ⟨some 110, none, some 36300000⟩

/-- Counterexample to C3: with a 5-minute interval and the open bar's opening
tick at 10:02:00, a tick at 10:05:00 lies on the boundary the claim
prescribes (opening timestamp truncated to the configured interval plus one
interval = 10:05:00), yet the aggregator does not close the bar: it emits
nothing and updates the open bar in place, because `_get_bar_end_time`
truncates to the minute, giving 10:02:00 + 5 min = 10:07:00. -/
theorem C3_counterexample :
    36300000 ≥ spec_interval_boundary 5 36120000 ∧
    aggregate_tick .Minutes 5 c3OpenState c3Tick =
      some ⟨some ⟨36120000, 100, 110, 100, 110, 0⟩, []⟩ := by
  constructor
  · norm_num [spec_interval_boundary]
  · norm_num [aggregate_tick, c3OpenState, c3Tick, LiveTick.isEmptyDict,
      get_bar_end_time, start_new_bar]

/-- C3 (amended): the aggregator closes the open bar exactly when a tick
arrives with timestamp on or after the window boundary, where the boundary
equals the timestamp of the tick that opened the bar truncated to the minute
plus the configured number of minutes (not truncated to the configured
interval); the closing tick seeds the new bar with
open = high = low = close = its price, and a tick strictly before the
boundary updates the open bar with high = max, low = min, close = price,
volume += tick volume.  The spec's example stream
(10:00:00, 100), (10:02:00, 105), (10:04:59, 95), (10:05:00, 110) at a
5-minute interval emits exactly one bar {open 100, high 105, low 95,
close 95} before the 10:05:00 tick opens the next window. -/
theorem C3_bar_boundary (compression : ℕ) (s : AggState) (b : TickBar)
    (tick : LiveTick) (price vol : ℚ) (ts : ℕ)
    (hb : s.current_bar = some b)
    (hp : tick.last_traded_price = some price)
    (hv : tick.last_traded_quantity = some vol)
    (ht : tick.exchange_timestamp = some ts) :
    (ts ≥ b.datetime / 60000 * 60000 + compression * 60000 →
      aggregate_tick .Minutes compression s tick =
        some ⟨some (start_new_bar ts price vol), s.emitted ++ [b]⟩) ∧
    (ts < b.datetime / 60000 * 60000 + compression * 60000 →
      aggregate_tick .Minutes compression s tick =
        some ⟨some { b with high := max b.high price, low := min b.low price,
                            close := price, volume := b.volume + vol },
              s.emitted⟩) ∧
    run_ticks .Minutes 5 ⟨none, []⟩
      [⟨some 100, none, some 36000000⟩, ⟨some 105, none, some 36120000⟩,
       ⟨some 95, none, some 36299000⟩, ⟨some 110, none, some 36300000⟩] =
      some ⟨some (start_new_bar 36300000 110 0),
            [⟨36000000, 100, 105, 95, 95, 0⟩]⟩ := by
  refine ⟨?_, ?_, by norm_num [run_ticks, aggregate_tick, LiveTick.isEmptyDict,
    get_bar_end_time, start_new_bar]⟩
  · intro hge
    unfold aggregate_tick
    rw [hp, ht, hb, hv]
    simp [LiveTick.isEmptyDict, hp, get_bar_end_time, hge]
  · intro hlt
    unfold aggregate_tick
    rw [hp, ht, hb, hv]
    simp [LiveTick.isEmptyDict, hp, get_bar_end_time, not_le.2 hlt]

/-- Witness for C3 (amended): the closing case at a concrete input — open bar
from a tick at 10:02:00, compression 5, a tick at 10:07:00 (the code's
boundary for that bar) closes the bar. -/
theorem C3_witness :
    aggregate_tick .Minutes 5 c3OpenState ⟨some 110, some 2, some 36420000⟩ =
      some ⟨some (start_new_bar 36420000 110 2),
            c3OpenState.emitted ++ [start_new_bar 36120000 100 0]⟩ :=
  (C3_bar_boundary 5 c3OpenState (start_new_bar 36120000 100 0)
      ⟨some 110, some 2, some 36420000⟩ 110 2 36420000 rfl rfl rfl rfl).1
    (by norm_num [start_new_bar])

/-- C7: the duplicate-signal check raises iff `active_orders` maps the
`(instrument, side)` key to `'FILLED'`; since `OMS.__init__` creates the
table empty and no statement in the source ever writes to it, the check
passes after every trace of backend operations — in particular an order
completing does not cause the next same-key intent to be rejected. -/
theorem C7_duplicate_check_never_fires (events : List OMSEvent)
    (dataName : String) (isbuy : Bool) :
    (omsRun events).active_orders = [] ∧
    check_duplicate_order (omsRun events) dataName isbuy = .pass ∧
    check_duplicate_order
      (omsRun [OMSEvent.orderCompleted "SBIN-EQ" true]) "SBIN-EQ" true =
      .pass := by
  have h : omsRun events = omsInit := omsFoldl_fixed events omsInit
  rw [h]
  exact ⟨rfl, rfl, rfl⟩

/-- Counterexample to C4: a sell fill of 10 @ 100 extending a flat/short
position leaves the average price at its old value (0) — the sell branch of
`_update_fill` never recomputes the average price — while the claimed
volume-weighted formula gives (0·0 + 100·10)/(0 + 10) = 100. -/
theorem C4_counterexample :
    (fillPosition ⟨0, 0⟩ false 10 100).size = -10 ∧
    (fillPosition ⟨0, 0⟩ false 10 100).price = 0 ∧
    ((0 * 0 + 100 * 10 : ℚ) / (0 + 10)) = 100 ∧ (0 : ℚ) ≠ 100 := by
  norm_num [fillPosition]

/-- C4 (amended): a buy fill extending a long position (old size ≥ 0,
positive fill quantity) sets the new average price to
(oldAvg·oldQty + fillPrice·fillQty)/(oldQty + fillQty), but a sell fill never
modifies the average price: extending a short position keeps the previous
average unchanged instead of applying the volume-weighted formula. -/
theorem C4_same_direction_avg (pos : Position) (size price : ℚ)
    (hlong : 0 ≤ pos.size) (hq : 0 < size) :
    (fillPosition pos true size price).size = pos.size + size ∧
    (fillPosition pos true size price).price =
      (pos.price * pos.size + price * size) / (pos.size + size) ∧
    ∀ (pos' : Position) (sz pr : ℚ),
      (fillPosition pos' false sz pr).price = pos'.price := by
  have hpos : (0 : ℚ) < pos.size + size := by linarith
  have hne : pos.size + size ≠ 0 := ne_of_gt hpos
  refine ⟨by simp [fillPosition], ?_, fun pos' sz pr => by simp [fillPosition]⟩
  simp only [fillPosition, if_neg hne]
  norm_num

/-- Witness for C4 (amended): a buy of 10 @ 100 onto a flat position gives
average price (0·0 + 100·10)/(0 + 10), and a sell of 2 @ 60 against a long
position of 3 @ 50 leaves the average price at 50. -/
theorem C4_witness :
    (fillPosition ⟨0, 0⟩ true 10 100).price = (0 * 0 + 100 * 10) / (0 + 10) ∧
    (fillPosition ⟨3, 50⟩ false 2 60).price = 50 :=
  ⟨(C4_same_direction_avg ⟨0, 0⟩ 10 100 (by norm_num) (by norm_num)).2.1,
   (C4_same_direction_avg ⟨0, 0⟩ 10 100 (by norm_num) (by norm_num)).2.2
     ⟨3, 50⟩ 2 60⟩

/-- C9: in the buy branch of `_update_fill` the divisor of the
volume-weighted average-price expression is the updated position size and is
consulted only when that size is nonzero; a buy that brings the net size to
exactly zero sets the average price to the fill price instead, so the
computation is total. -/
theorem C9_buy_fill_divisor_guard (pos : Position) (size price : ℚ) :
    (fillPosition pos true size price).size = pos.size + size ∧
    (pos.size + size = 0 → (fillPosition pos true size price).price = price) ∧
    (pos.size + size ≠ 0 →
      (fillPosition pos true size price).price =
        (pos.price * pos.size + price * size) / (pos.size + size)) := by
  refine ⟨by simp [fillPosition], fun h => by simp [fillPosition, h], fun h => ?_⟩
  simp only [fillPosition, if_neg h]
  norm_num

/-- Witness for C9: a buy of 5 @ 80 covering a short of 5 @ 50 zeroes the
position and sets the average price to the fill price 80; a buy of 5 @ 130
extending a long of 10 @ 100 uses the volume-weighted expression. -/
theorem C9_witness :
    (fillPosition ⟨-5, 50⟩ true 5 80).price = 80 ∧
    (fillPosition ⟨10, 100⟩ true 5 130).price = (100 * 10 + 130 * 5) / (10 + 5) :=
  ⟨(C9_buy_fill_divisor_guard ⟨-5, 50⟩ 5 80).2.1 (by norm_num),
   (C9_buy_fill_divisor_guard ⟨10, 100⟩ 5 130).2.2 (by norm_num)⟩

/-- A Limit buy intent for 100 shares at limit price 20. -/
def c6LimitOrder : BtOrder := ⟨1, 0, true, .Limit, 100, some 20, .Created, 0⟩

/-- A Market buy intent for a single share; per the data model a Market order
carries no limit price. -/
def c6MarketOrder : BtOrder := ⟨2, 0, true, .Market, 1, none, .Created, 0⟩

/-- Counterexample to C6: a Market intent for 1 share with latest market
price 5 and cash 1000000 satisfies requestedQty × referencePrice ≤
availableCash, so the claim says it is not rejected; but `check_margin`
computes `order.size * order.price` with `order.price = None`, which raises a
`TypeError` (caught by `execute_order`, rejecting the order) — the latest
market price is never consulted. -/
theorem C6_counterexample :
    check_margin 1000000 c6MarketOrder ≠ .pass ∧
    check_margin 1000000 c6MarketOrder = .err "TypeError" ∧
    ¬(c6MarketOrder.size * 5 > (1000000 : ℚ)) :=
  ⟨by simp [check_margin, c6MarketOrder], rfl, by norm_num [c6MarketOrder]⟩

/-- C6 (amended): the margin check rejects iff
`order.size × limitPrice > availableCash` when the intent carries a limit
price; an intent without a limit price always fails the check with a
`TypeError` — the latest market price is never used as a fallback.  The
spec's example cash = 1000, qty = 100, price = 20 is rejected
(2000 > 1000). -/
theorem C6_margin_check (cash : ℚ) (order : BtOrder) :
    (∀ p, order.price = some p →
      (check_margin cash order = .pass ↔ ¬(order.size * p > cash))) ∧
    (order.price = none → check_margin cash order = .err "TypeError") ∧
    check_margin 1000 c6LimitOrder = .err "Insufficient margin" := by
  refine ⟨fun p hp => ?_, fun hn => ?_, ?_⟩
  · by_cases h : cash < order.size * p <;>
      simp [check_margin, hp, h, gt_iff_lt, not_lt]
  · simp [check_margin, hn]
  · norm_num [check_margin, c6LimitOrder]

/-- Witness for C6 (amended): the Limit intent 100 @ 20 against cash 1000
fails the check, and a Market intent (no limit price) fails with the
`TypeError`. -/
theorem C6_witness :
    check_margin 1000 c6LimitOrder ≠ .pass ∧
    check_margin 7 c6MarketOrder = .err "TypeError" :=
  ⟨fun hp => ((C6_margin_check 1000 c6LimitOrder).1 20 rfl).mp hp
      (by norm_num [c6LimitOrder]),
   (C6_margin_check 7 c6MarketOrder).2.1 rfl⟩

lemma pyRound_dist (x : ℚ) : |(pyRound x : ℚ) - x| ≤ 1 / 2 := by
  have h0 : 0 ≤ Int.fract x := Int.fract_nonneg x
  have h1 : Int.fract x < 1 := Int.fract_lt_one x
  have hfl : (⌊x⌋ : ℚ) - x = -Int.fract x := by
    unfold Int.fract; ring
  have hfl1 : ((⌊x⌋ : ℚ) + 1) - x = 1 - Int.fract x := by
    unfold Int.fract; ring
  unfold pyRound
  split_ifs with hlt hgt hev
  · rw [hfl, abs_neg, abs_of_nonneg h0]; linarith
  · push_cast
    rw [hfl1, abs_of_nonneg (by linarith)]; linarith
  · have heq : Int.fract x = 1 / 2 := le_antisymm (not_lt.1 hgt) (not_lt.1 hlt)
    rw [hfl, abs_neg, abs_of_nonneg h0, heq]
  · have heq : Int.fract x = 1 / 2 := le_antisymm (not_lt.1 hgt) (not_lt.1 hlt)
    push_cast
    rw [hfl1, abs_of_nonneg (by linarith), heq]; norm_num

/-- C5: slippage control rewrites a Market intent into a LIMIT order priced
at lastPrice + 5·T for a buy and lastPrice − 5·T for a sell, rounds the
result to a multiple of the effective tick size T that is within half a tick
of the raw price (Python's `round`, half to even), leaves the other order
fields unchanged, and returns non-Market intents untouched.  On the spec's
example last = 100.02, T = 0.05, the buy raw price 100.27 is rounded to
100.25. -/
theorem C5_slippage_control (op : OrderParams) (last_price : ℚ)
    (m : Option ℚ) (hmkt : op.ordertype = "MARKET")
    (hT : 0 < effective_tick m) :
    (apply_slippage_control op last_price m).ordertype = "LIMIT" ∧
    (apply_slippage_control op last_price m).transactiontype =
      op.transactiontype ∧
    (apply_slippage_control op last_price m).quantity = op.quantity ∧
    (apply_slippage_control op last_price m).price =
      some ((pyRound
        ((if op.transactiontype = "BUY"
          then last_price + effective_tick m * 5
          else last_price - effective_tick m * 5) / effective_tick m) : ℚ) *
        effective_tick m) ∧
    (∀ raw pr, (apply_slippage_control op last_price m).price = some pr →
      raw = (if op.transactiontype = "BUY"
             then last_price + effective_tick m * 5
             else last_price - effective_tick m * 5) →
      (∃ k : ℤ, pr = (k : ℚ) * effective_tick m) ∧
      |pr - raw| ≤ effective_tick m / 2) ∧
    (∀ op' : OrderParams, op'.ordertype ≠ "MARKET" →
      apply_slippage_control op' last_price m = op') ∧
    apply_slippage_control ⟨"MARKET", "BUY", 1, none⟩ (10002 / 100)
      (some (5 / 100)) = ⟨"LIMIT", "BUY", 1, some (10025 / 100)⟩ := by
  have hTne : effective_tick m ≠ 0 := ne_of_gt hT
  refine ⟨?_, ?_, ?_, ?_, ?_, ?_, ?_⟩
  · simp [apply_slippage_control, hmkt]
  · simp [apply_slippage_control, hmkt]
  · simp [apply_slippage_control, hmkt]
  · simp [apply_slippage_control, hmkt]
  · intro raw pr hpr hraw
    simp only [apply_slippage_control, hmkt] at hpr
    simp only [if_true] at hpr
    simp only [Option.some.injEq] at hpr
    subst hraw
    refine ⟨⟨pyRound ((if op.transactiontype = "BUY"
        then last_price + effective_tick m * 5
        else last_price - effective_tick m * 5) / effective_tick m),
        hpr.symm⟩, ?_⟩
    set T := effective_tick m with hTdef
    set raw := (if op.transactiontype = "BUY"
        then last_price + T * 5
        else last_price - T * 5) with hrawdef
    rw [← hpr]
    have hcancel : raw / T * T = raw := div_mul_cancel₀ raw hTne
    calc |(pyRound (raw / T) : ℚ) * T - raw|
        = |(pyRound (raw / T) : ℚ) * T - raw / T * T| := by rw [hcancel]
      _ = |((pyRound (raw / T) : ℚ) - raw / T) * T| := by ring_nf
      _ = |(pyRound (raw / T) : ℚ) - raw / T| * |T| := abs_mul _ _
      _ = |(pyRound (raw / T) : ℚ) - raw / T| * T := by rw [abs_of_pos hT]
      _ ≤ 1 / 2 * T :=
          mul_le_mul_of_nonneg_right (pyRound_dist _) (le_of_lt hT)
      _ = T / 2 := by ring
  · intro op' h
    simp [apply_slippage_control, h]
  · norm_num [apply_slippage_control, effective_tick, pyRound, Int.fract]

/-- Witness for C5 at the spec's example: Market buy, last price 100.02,
tick size 0.05. -/
theorem C5_witness :
    (0 : ℚ) < effective_tick (some (5 / 100)) ∧
    (apply_slippage_control ⟨"MARKET", "BUY", 1, none⟩ (10002 / 100)
      (some (5 / 100))).ordertype = "LIMIT" :=
  ⟨by norm_num [effective_tick],
   (C5_slippage_control ⟨"MARKET", "BUY", 1, none⟩ (10002 / 100)
      (some (5 / 100)) rfl (by norm_num [effective_tick])).1⟩

lemma update_fill_orders (st : BrokerState) (o : BtOrder) (size price : ℚ) :
    (update_fill st o size price).orders =
      fun r => if r = o.ref then some (o.execute size) else st.orders r := by
  unfold update_fill
  dsimp only
  split <;> rfl

lemma update_fill_positions (st : BrokerState) (o : BtOrder) (size price : ℚ) :
    (update_fill st o size price).positions =
      fun d => if d = o.dataId then
                 some (fillPosition ((st.positions o.dataId).getD ⟨0, 0⟩)
                   o.isbuy size price)
               else st.positions d := by
  unfold update_fill
  dsimp only
  split <;> rfl

lemma update_fill_cash (st : BrokerState) (o : BtOrder) (size price : ℚ) :
    (update_fill st o size price).cash = fillCash st.cash o.isbuy size price := by
  unfold update_fill
  dsimp only
  split <;> rfl

lemma update_fill_btOrderMap_completed (st : BrokerState) (o : BtOrder)
    (size price : ℚ) (h : (o.execute size).status = .Completed) :
    (update_fill st o size price).btOrderMap =
      fun r => if r = o.ref then none else st.btOrderMap r := by
  unfold update_fill
  dsimp only
  rw [if_pos h]
  rfl

lemma update_fill_brokerOrderMap_completed (st : BrokerState) (o : BtOrder)
    (size price : ℚ) (h : (o.execute size).status = .Completed) :
    (update_fill st o size price).brokerOrderMap =
      fun b => if st.btOrderMap o.ref = some b then none
               else st.brokerOrderMap b := by
  unfold update_fill
  dsimp only
  rw [if_pos h]
  rfl

lemma update_fill_btOrderMap_open (st : BrokerState) (o : BtOrder)
    (size price : ℚ) (h : ¬(o.execute size).status = .Completed) :
    (update_fill st o size price).btOrderMap = st.btOrderMap := by
  unfold update_fill
  dsimp only
  rw [if_neg h]

lemma update_fill_brokerOrderMap_open (st : BrokerState) (o : BtOrder)
    (size price : ℚ) (h : ¬(o.execute size).status = .Completed) :
    (update_fill st o size price).brokerOrderMap = st.brokerOrderMap := by
  unfold update_fill
  dsimp only
  rw [if_neg h]

/-- C8: a rejected or cancelled event leaves the position table and the cash
balance exactly as the earlier fills left them — the reject/cancel handling
puts the order in its terminal state and removes the identifier-map entries,
but touches no position quantity, no average price and no cash. -/
theorem C8_reject_cancel_frame (st : BrokerState) (data : OrderUpdateData)
    (st' : BrokerState)
    (h : data.status = some "rejected" ∨ data.status = some "cancelled")
    (hup : handle_order_update st data = some st') :
    st'.positions = st.positions ∧ st'.cash = st.cash := by
  have hne : data.status ≠ some "complete" := by
    rcases h with h | h <;> rw [h] <;> simp
  unfold handle_order_update at hup
  cases hdo : data.orderid with
  | none =>
    simp only [hdo] at hup
    obtain rfl := Option.some.inj hup
    exact ⟨rfl, rfl⟩
  | some bid =>
    simp only [hdo] at hup
    cases hbm : st.brokerOrderMap bid with
    | none =>
      simp only [hbm] at hup
      obtain rfl := Option.some.inj hup
      exact ⟨rfl, rfl⟩
    | some ref =>
      simp only [hbm] at hup
      cases hor : st.orders ref with
      | none =>
        simp only [hor] at hup
        obtain rfl := Option.some.inj hup
        exact ⟨rfl, rfl⟩
      | some o =>
        simp only [hor] at hup
        rw [if_neg hne, if_pos h] at hup
        obtain rfl := Option.some.inj hup
        exact ⟨rfl, rfl⟩

/-- An order with a prior partial fill: 5 of 10 shares filled at 2. -/
def c8Order : BtOrder := ⟨1, 7, true, .Limit, 10, some 2, .PartiallyFilled, 5⟩

/-- A broker state holding `c8Order` with its partial fill already applied to
the position (long 5 @ 2) and to cash (990 of 1000 remaining). -/
def c8St : BrokerState :=
  { positions := fun d => if d = 7 then some ⟨5, 2⟩ else none,
    orders := fun r => if r = 1 then some c8Order else none,
    btOrderMap := fun r => if r = 1 then some "B1" else none,
    brokerOrderMap := fun b => if b = "B1" then some 1 else none,
    cash := 990 }

/-- A rejected event for `c8Order`'s broker id. -/
def c8Ev : OrderUpdateData := ⟨some "B1", some "rejected", none, none⟩

/-- The state after applying the rejected event to `c8St`. -/
def c8After : BrokerState := (handle_order_update c8St c8Ev).getD c8St

/-- Witness for C8: applying a rejected event to an order with prior partial
fills leaves the position table and cash untouched. -/
theorem C8_witness :
    c8Order.filled = 5 ∧ (0 : ℚ) < 5 ∧
    handle_order_update c8St c8Ev = some c8After ∧
    c8After.positions = c8St.positions ∧ c8After.cash = c8St.cash := by
  have hup : handle_order_update c8St c8Ev = some c8After := rfl
  have h := C8_reject_cancel_frame c8St c8Ev c8After (Or.inl rfl) hup
  exact ⟨rfl, by norm_num, hup, h.1, h.2⟩

/-- Counterexample to C1: an order with requested quantity 10 receives a fill
event for 15 shares at price 2; the reconciler applies the full 15 to the
order's cumulative filled quantity and to the position — the cumulative
filled quantity (15) exceeds the requested quantity (10), nothing is clamped
and the whole excess reaches the position table. -/
theorem C1_counterexample :
    ((handle_order_update
        ⟨fun _ => none,
         fun r => if r = 1 then some ⟨1, 7, true, .Limit, 10, some 2, .Submitted, 0⟩ else none,
         fun r => if r = 1 then some "B1" else none,
         fun b => if b = "B1" then some 1 else none,
         1000⟩
        ⟨some "B1", some "complete", some 2, some 15⟩).bind
      fun s => (s.orders 1).map BtOrder.filled) = some 15 ∧
    ((handle_order_update
        ⟨fun _ => none,
         fun r => if r = 1 then some ⟨1, 7, true, .Limit, 10, some 2, .Submitted, 0⟩ else none,
         fun r => if r = 1 then some "B1" else none,
         fun b => if b = "B1" then some 1 else none,
         1000⟩
        ⟨some "B1", some "complete", some 2, some 15⟩).bind
      fun s => s.positions 7) = some ⟨15, 2⟩ ∧
    ¬((15 : ℚ) ≤ 10) := by
  refine ⟨?_, ?_, by norm_num⟩ <;>
    norm_num [handle_order_update, update_fill, cleanup_order, BtOrder.execute,
      fillPosition, fillCash,
      (by decide : OrderStatus.PartiallyFilled ≠ OrderStatus.Completed)]

/-- C1 (amended): a fill event applied by the reconciler to a mapped,
non-terminal order adds the event's full fill quantity to the order's
cumulative filled quantity and applies the full fill to the position and the
cash — no clamping against the requested quantity and no flagging take
place, so a fill can push the cumulative filled quantity past the requested
quantity. -/
theorem C1_fill_applied_unclamped (st : BrokerState) (data : OrderUpdateData)
    (bid : String) (ref : ℕ) (o : BtOrder) (p q : ℚ)
    (h1 : data.orderid = some bid)
    (h2 : st.brokerOrderMap bid = some ref)
    (h3 : st.orders ref = some o)
    (href : o.ref = ref)
    (h5 : data.status = some "complete")
    (h6 : data.averageprice = some p)
    (h7 : data.filledshares = some q) :
    handle_order_update st data = some (update_fill st o q p) ∧
    (update_fill st o q p).orders ref = some (o.execute q) ∧
    (o.execute q).filled = o.filled + q ∧
    (update_fill st o q p).positions o.dataId =
      some (fillPosition ((st.positions o.dataId).getD ⟨0, 0⟩) o.isbuy q p) ∧
    (update_fill st o q p).cash = fillCash st.cash o.isbuy q p := by
  refine ⟨?_, ?_, rfl, ?_, update_fill_cash st o q p⟩
  · simp [handle_order_update, h1, h2, h3, h5, h6, h7]
  · rw [update_fill_orders]
    simp [href]
  · rw [update_fill_positions]
    simp

/-- Witness for C1 (amended) at the counterexample input. -/
theorem C1_witness :
    (update_fill
        ⟨fun _ => none,
         fun r => if r = 1 then some ⟨1, 7, true, .Limit, 10, some 2, .Submitted, 0⟩ else none,
         fun r => if r = 1 then some "B1" else none,
         fun b => if b = "B1" then some 1 else none,
         1000⟩
        ⟨1, 7, true, .Limit, 10, some 2, .Submitted, 0⟩ 15 2).orders 1 =
      some ((⟨1, 7, true, .Limit, 10, some 2, .Submitted, 0⟩ : BtOrder).execute 15) ∧
    ((⟨1, 7, true, .Limit, 10, some 2, .Submitted, 0⟩ : BtOrder).execute 15).filled =
      0 + 15 :=
  ⟨(C1_fill_applied_unclamped
      ⟨fun _ => none,
       fun r => if r = 1 then some ⟨1, 7, true, .Limit, 10, some 2, .Submitted, 0⟩ else none,
       fun r => if r = 1 then some "B1" else none,
       fun b => if b = "B1" then some 1 else none,
       1000⟩
      ⟨some "B1", some "complete", some 2, some 15⟩ "B1" 1
      ⟨1, 7, true, .Limit, 10, some 2, .Submitted, 0⟩ 2 15
      rfl (by norm_num) (by norm_num) rfl rfl rfl rfl).2.1,
   (C1_fill_applied_unclamped
      ⟨fun _ => none,
       fun r => if r = 1 then some ⟨1, 7, true, .Limit, 10, some 2, .Submitted, 0⟩ else none,
       fun r => if r = 1 then some "B1" else none,
       fun b => if b = "B1" then some 1 else none,
       1000⟩
      ⟨some "B1", some "complete", some 2, some 15⟩ "B1" 1
      ⟨1, 7, true, .Limit, 10, some 2, .Submitted, 0⟩ 2 15
      rfl (by norm_num) (by norm_num) rfl rfl rfl rfl).2.2.1⟩

lemma execute_open_not_terminal (o : BtOrder) (q : ℚ)
    (h : ¬(o.execute q).status = .Completed) :
    (o.execute q).status.isTerminal = false := by
  by_cases hq : o.filled + q = o.size
  · exact absurd (by simp [BtOrder.execute, hq]) h
  · simp [BtOrder.execute, hq, OrderStatus.isTerminal]

lemma initBroker_Inv (c : ℚ) : Inv (initBroker c) := by
  constructor
  · intro r o h
    simp [initBroker] at h
  · intro bid ref h
    simp [initBroker] at h

lemma reject_insert_Inv (st : BrokerState) (o : BtOrder) (hInv : Inv st)
    (hfreshbt : st.btOrderMap o.ref = none) :
    Inv { st with orders := fun r => if r = o.ref then some o.reject
                                     else st.orders r } := by
  obtain ⟨hkey, hmap⟩ := hInv
  constructor
  · intro r o₂ h
    dsimp at h
    by_cases hr : r = o.ref
    · subst hr
      simp at h
      rw [← h]
      rfl
    · rw [if_neg hr] at h
      exact hkey r o₂ h
  · intro bid ref h
    dsimp at h
    obtain ⟨hbt, o3, ho3, ht3⟩ := hmap bid ref h
    have hne : ref ≠ o.ref := by
      intro he
      rw [he, hfreshbt] at hbt
      exact Option.noConfusion hbt
    refine ⟨hbt, o3, ?_, ht3⟩
    dsimp
    rw [if_neg hne]
    exact ho3

lemma place_order_Inv (st : BrokerState) (o : BtOrder) (resp : PlaceResponse)
    (hInv : Inv st) (hfreshbt : st.btOrderMap o.ref = none) :
    Inv (place_order st o resp) := by
  obtain ⟨hkey, hmap⟩ := hInv
  unfold place_order
  by_cases hprep : prepare_order_params_ok o = false
  · rw [if_pos hprep]
    exact reject_insert_Inv st o ⟨hkey, hmap⟩ hfreshbt
  · rw [if_neg hprep]
    cases resp with
    | failed => exact reject_insert_Inv st o ⟨hkey, hmap⟩ hfreshbt
    | exc => exact reject_insert_Inv st o ⟨hkey, hmap⟩ hfreshbt
    | ok bid' =>
      constructor
      · intro r o₂ h
        dsimp at h
        by_cases hr : r = o.ref
        · subst hr
          simp at h
          rw [← h]
          rfl
        · rw [if_neg hr] at h
          exact hkey r o₂ h
      · intro bid ref h
        dsimp at h
        by_cases hb : bid = bid'
        · rw [if_pos hb] at h
          obtain rfl := Option.some.inj h
          refine ⟨?_, o.submit, ?_, rfl⟩
          · dsimp
            rw [if_pos rfl, hb]
          · dsimp
            rw [if_pos rfl]
        · rw [if_neg hb] at h
          obtain ⟨hbt, o3, ho3, ht3⟩ := hmap bid ref h
          have hne : ref ≠ o.ref := by
            intro he
            rw [he, hfreshbt] at hbt
            exact Option.noConfusion hbt
          refine ⟨?_, o3, ?_, ht3⟩
          · dsimp
            rw [if_neg hne]
            exact hbt
          · dsimp
            rw [if_neg hne]
            exact ho3

/-- C2: once an order has reached a terminal status (Completed, Rejected or
Cancelled), no subsequently applied broker order-update event changes that
order or is acted upon: under the reconciler's invariant (terminal orders
have been removed from the identifier maps by `_cleanup_order`), applying any
event preserves the invariant and leaves every terminal order — its status
and its filled quantity — exactly as it was; an event whose broker id no
longer resolves is ignored. -/
theorem C2_terminal_immutable (st : BrokerState) (data : OrderUpdateData)
    (st' : BrokerState) (hInv : Inv st)
    (hup : handle_order_update st data = some st') :
    Inv st' ∧
    ∀ r o, st.orders r = some o → o.status.isTerminal = true →
      st'.orders r = some o := by
  obtain ⟨hkey, hmap⟩ := hInv
  unfold handle_order_update at hup
  cases hdo : data.orderid with
  | none =>
    simp only [hdo] at hup
    obtain rfl := Option.some.inj hup
    exact ⟨⟨hkey, hmap⟩, fun r o h _ => h⟩
  | some bid =>
    simp only [hdo] at hup
    cases hbm : st.brokerOrderMap bid with
    | none =>
      simp only [hbm] at hup
      obtain rfl := Option.some.inj hup
      exact ⟨⟨hkey, hmap⟩, fun r o h _ => h⟩
    | some ref =>
      simp only [hbm] at hup
      cases hor : st.orders ref with
      | none =>
        simp only [hor] at hup
        obtain rfl := Option.some.inj hup
        exact ⟨⟨hkey, hmap⟩, fun r o h _ => h⟩
      | some o =>
        simp only [hor] at hup
        obtain ⟨hbt, o', ho', hterm⟩ := hmap bid ref hbm
        rw [hor] at ho'
        obtain rfl := Option.some.inj ho'
        have href : o.ref = ref := hkey ref o hor
        have hfrozen : ∀ r oT, st.orders r = some oT →
            oT.status.isTerminal = true → r ≠ ref := by
          intro r oT hT hTt he
          rw [he, hor] at hT
          obtain rfl := Option.some.inj hT
          rw [hterm] at hTt
          exact Bool.noConfusion hTt
        by_cases hc : data.status = some "complete"
        · rw [if_pos hc] at hup
          cases hap : data.averageprice with
          | none => simp [hap] at hup
          | some p =>
            cases hfs : data.filledshares with
            | none => simp [hap, hfs] at hup
            | some q =>
              simp only [hap, hfs] at hup
              obtain rfl := Option.some.inj hup
              refine ⟨⟨?_, ?_⟩, ?_⟩
              · intro r o₂ h
                simp only [update_fill_orders] at h
                by_cases hr : r = o.ref
                · subst hr
                  rw [if_pos rfl] at h
                  obtain rfl := Option.some.inj h
                  rfl
                · rw [if_neg hr] at h
                  exact hkey r o₂ h
              · intro bid2 ref2 h
                by_cases hcomp : (o.execute q).status = .Completed
                · simp only [update_fill_brokerOrderMap_completed st o q p hcomp,
                      href, hbt] at h
                  by_cases hb : bid = bid2
                  · rw [if_pos (by rw [hb])] at h
                    exact Option.noConfusion h
                  · rw [if_neg (by simpa using hb)] at h
                    obtain ⟨hbt2, o3, ho3, ht3⟩ := hmap bid2 ref2 h
                    have hne2 : ref2 ≠ ref := by
                      intro he
                      rw [he, hbt] at hbt2
                      exact hb (Option.some.inj hbt2)
                    refine ⟨?_, o3, ?_, ht3⟩
                    · rw [update_fill_btOrderMap_completed st o q p hcomp]
                      dsimp
                      rw [href, if_neg hne2]
                      exact hbt2
                    · simp only [update_fill_orders]
                      rw [href, if_neg hne2]
                      exact ho3
                · rw [update_fill_brokerOrderMap_open st o q p hcomp] at h
                  obtain ⟨hbt2, o3, ho3, ht3⟩ := hmap bid2 ref2 h
                  refine ⟨?_, ?_⟩
                  · rw [update_fill_btOrderMap_open st o q p hcomp]
                    exact hbt2
                  · simp only [update_fill_orders]
                    by_cases hr2 : ref2 = o.ref
                    · exact ⟨o.execute q, by rw [if_pos hr2],
                        execute_open_not_terminal o q hcomp⟩
                    · exact ⟨o3, by rw [if_neg hr2]; exact ho3, ht3⟩
              · intro r oT hT hTt
                simp only [update_fill_orders]
                rw [href, if_neg (hfrozen r oT hT hTt)]
                exact hT
        · rw [if_neg hc] at hup
          by_cases hrc : data.status = some "rejected" ∨
              data.status = some "cancelled"
          · rw [if_pos hrc] at hup
            set o2 : BtOrder := if data.status = some "rejected" then o.reject
                else o.cancel with ho2
            obtain rfl := Option.some.inj hup
            have ho2ref : o2.ref = o.ref := by
              rw [ho2]
              split <;> rfl
            set S : BrokerState := cleanup_order
                { st with orders := fun r => if r = o2.ref then some o2
                                             else st.orders r }
                o.ref (some bid) with hS
            have hSo : S.orders = fun r => if r = o.ref then some o2
                else st.orders r := by
              funext r
              rw [hS]
              simp only [cleanup_order]
              rw [ho2ref]
            have hSbt : S.btOrderMap = fun r => if r = o.ref then none
                else st.btOrderMap r := rfl
            have hSbo : S.brokerOrderMap = fun b =>
                if some bid = some b then none
                else st.brokerOrderMap b := rfl
            refine ⟨⟨?_, ?_⟩, ?_⟩
            · intro r o₂ h
              simp only [hSo] at h
              by_cases hr : r = o.ref
              · subst hr
                rw [if_pos rfl] at h
                obtain rfl := Option.some.inj h
                exact ho2ref
              · rw [if_neg hr] at h
                exact hkey r o₂ h
            · intro bid2 ref2 h
              simp only [hSbo] at h
              by_cases hb : bid = bid2
              · rw [if_pos (by rw [hb])] at h
                exact Option.noConfusion h
              · rw [if_neg (by simpa using hb)] at h
                obtain ⟨hbt2, o3, ho3, ht3⟩ := hmap bid2 ref2 h
                have hne2 : ref2 ≠ ref := by
                  intro he
                  rw [he, hbt] at hbt2
                  exact hb (Option.some.inj hbt2)
                refine ⟨?_, o3, ?_, ht3⟩
                · simp only [hSbt]
                  rw [href, if_neg hne2]
                  exact hbt2
                · simp only [hSo]
                  rw [href, if_neg hne2]
                  exact ho3
            · intro r oT hT hTt
              simp only [hSo]
              rw [href, if_neg (hfrozen r oT hT hTt)]
              exact hT
          · rw [if_neg hrc] at hup
            obtain rfl := Option.some.inj hup
            exact ⟨⟨hkey, hmap⟩, fun r o h _ => h⟩

/-- A completed order: all 10 requested shares filled at 2. -/
def c2Order : BtOrder := ⟨1, 7, true, .Limit, 10, some 2, .Completed, 10⟩

/-- A broker state holding the terminal `c2Order`; its identifier-map entries
have already been removed by `_cleanup_order`. -/
def c2St : BrokerState :=
  { positions := fun d => if d = 7 then some ⟨10, 2⟩ else none,
    orders := fun r => if r = 1 then some c2Order else none,
    btOrderMap := fun _ => none,
    brokerOrderMap := fun _ => none,
    cash := 980 }

/-- A later fill event that references the completed order's old broker id. -/
def c2Ev : OrderUpdateData := ⟨some "B1", some "complete", some 2, some 5⟩

/-- The state after applying `c2Ev` to `c2St`. -/
def c2After : BrokerState := (handle_order_update c2St c2Ev).getD c2St

lemma c2St_Inv : Inv c2St := by
  constructor
  · intro r o h
    dsimp [c2St] at h
    by_cases hr : r = 1
    · subst hr
      rw [if_pos rfl] at h
      obtain rfl := Option.some.inj h
      rfl
    · rw [if_neg hr] at h
      exact Option.noConfusion h
  · intro bid ref h
    exact Option.noConfusion h

/-- Witness for C2: a fill event referencing a completed (terminal) order is
ignored and the order is unchanged. -/
theorem C2_witness :
    c2Order.status.isTerminal = true ∧
    handle_order_update c2St c2Ev = some c2After ∧
    c2After.orders 1 = some c2Order :=
  ⟨rfl, rfl,
   (C2_terminal_immutable c2St c2Ev c2After c2St_Inv rfl).2 1 c2Order rfl rfl⟩

end Backtrader
